import Mathlib

/-!
Shallow embedding of the tile-tree update and subdivision engine of the
itowns repository: `TiledGeometryLayer` (preUpdate, update,
hasEnoughTexturesToSubdivide, subdivideNode) and `GeometryLayer.detach`.

Object identity of layers (`n.layer == this` in the source) is modelled by a
numeric layer id.  External collaborators that live outside the embedded
files (the culling oracle, the subdivision criterion, the scheduler, the
material, `findCommonAncestor`) are modelled as parameters or opaque state
read by the embedded code, following the contracts stated for them.
-/

namespace Itowns

/-- A reference to a child object in `node.children`; only its owning layer
is inspected by the embedded code (`n.layer == this`). -/
structure ChildRef where
  layer : Nat
deriving DecidableEq

/-- The part of `node.parent` read by `update`. -/
structure ParentRef where
  pendingSubdivision : Bool
deriving DecidableEq

/-- Per-layer load status record stored in `node.layerUpdateState`. -/
structure LayerUpdateStatus where
  errored : Bool
deriving DecidableEq

/-- The `inError()` query on a per-layer status record. -/
def LayerUpdateStatus.inError (s : LayerUpdateStatus) : Bool :=
  s.errored

/-- The state of a tile node (`TileMesh`) read and written by the embedded
functions.  `displayed` models the flag written through `setDisplayed`
(the `TileMesh` class itself is an external collaborator of the embedded
files); `materialVisible` models the read of `node.material.visible`;
`elevationLoaded` models `node.material.isElevationLayerLoaded()`;
`colorLoaded` models `node.material.isColorLayerLoaded(c)` keyed by the
layer id; `sourceCovers` models
`layer.source.extentsInsideLimit(node.getCoordsForSource(layer.source))`
keyed by the layer id; `fog` models the value written through `setFog`. -/
structure TileNode where
  parent : Option ParentRef
  pendingSubdivision : Bool
  children : List ChildRef
  visible : Bool
  displayed : Bool
  materialVisible : Bool
  elevationLoaded : Bool
  colorLoaded : Nat → Bool
  layerUpdateState : Nat → Option LayerUpdateStatus
  sourceCovers : Nat → Bool
  fog : Option Nat

/-- A color or elevation layer as inspected by the readiness gate. -/
structure DataLayer where
  id : Nat
  frozen : Bool
  ready : Bool
  visible : Bool
deriving DecidableEq

/-- The per-frame update context fields read by the embedded functions:
the active layer lists, the fog distance of the view and an opaque tag
standing for `context.camera`. -/
structure UContext where
  elevationLayers : List DataLayer
  colorLayers : List DataLayer
  fogDistance : Option Nat
  cameraTag : Nat

/-- The tiled layer itself: its identity plus the two external predicates it
owns, the culling oracle `this.culling(node, camera)` and the subdivision
criterion `this.subdivision(context, this, node)` (the layer argument of the
criterion is passed as the layer id). -/
structure TiledLayer where
  id : Nat
  culling : TileNode → Nat → Bool
  subdivision : UContext → Nat → TileNode → Bool

/-- Whether `node.layerUpdateState[id]` exists and reports `inError()`. -/
def layerInError (node : TileNode) (id : Nat) : Bool :=
  match node.layerUpdateState id with
  | some st => st.inError
  | none => false

/-- Embedding of `TiledGeometryLayer.hasEnoughTexturesToSubdivide`.  The two
source loops with early `return false` and `continue` are rendered as `all`
over the layer lists, which is equivalent because the loop bodies are free
of side effects. -/
def hasEnoughTexturesToSubdivide (ctx : UContext) (node : TileNode) : Bool :=
  (ctx.elevationLayers.all fun e =>
    if !e.frozen && e.ready && node.sourceCovers e.id && !node.elevationLoaded then
      layerInError node e.id
    else
      true) &&
  (ctx.colorLayers.all fun c =>
    if c.frozen || !c.visible || !c.ready then
      true
    else if layerInError node c.id then
      true
    else
      !(node.sourceCovers c.id && !(node.colorLoaded c.id)))

/-- The fields of the Subdivision Command submitted by `subdivideNode` that
the embedded code constructs itself (the extents come from the external
`extent.subdivision()`). -/
structure SubdivisionCommand where
  priority : Nat
  redraw : Bool
deriving DecidableEq

/-- Embedding of the synchronous part of `TiledGeometryLayer.subdivideNode`:
the idempotency guard, the setting of `pendingSubdivision` and the
submission of the command.  Returns the updated node and the submitted
command, if any.  The asynchronous completion is embedded separately as
`subdivideNodeOnResolve` and `subdivideNodeOnReject`. -/
def subdivideNode (layerId : Nat) (node : TileNode) : TileNode × Option SubdivisionCommand :=
  if !node.pendingSubdivision && !(node.children.any fun n => n.layer == layerId) then
    ({ node with pendingSubdivision := true },
     some { priority := 10000, redraw := false })
  else
    (node, none)

/-- Embedding of the fulfilled branch of the command promise inside
`subdivideNode`: each child is added to the node, `pendingSubdivision` is
cleared (the `updateMatrixWorld` and `notifyChange` calls are external side
effects on collaborators). -/
def subdivideNodeOnResolve (node : TileNode) (kids : List ChildRef) : TileNode :=
  { node with children := node.children ++ kids, pendingSubdivision := false }

/-- An error delivered to the rejected branch of the command promise;
`cancelled` models `err instanceof CancelledCommandException`. -/
structure JsError where
  cancelled : Bool
deriving DecidableEq

/-- Embedding of the rejected branch of the command promise inside
`subdivideNode`: `pendingSubdivision` is cleared and, unless the error is a
cancellation, the error is re-thrown; the second component is the surfaced
error, `none` meaning nothing was thrown. -/
def subdivideNodeOnReject (node : TileNode) (err : JsError) : TileNode × Option JsError :=
  ({ node with pendingSubdivision := false },
   if err.cancelled then none else some err)

/-- The value returned by `update`: the passed-through result of
`removeChildrenAndCleanup`, the `undefined` return, the passed-through
result of `removeChildren`, or the filtered list of children to visit. -/
inductive UpdateReturn where
  | cleanup
  | nothing
  | removed
  | visit (cs : List ChildRef)

/-- The outcome of one `update` call: the new node state, the returned
value, and flags recording which collaborator calls were made (the culling
oracle, `subdivideNode` together with the command it submitted,
`ObjectRemovalHelper.removeChildren` and
`ObjectRemovalHelper.removeChildrenAndCleanup`). -/
structure UpdateOutcome where
  node : TileNode
  ret : UpdateReturn
  culledTested : Bool
  subdivideCalled : Bool
  commandSubmitted : Option SubdivisionCommand
  removeChildrenCalled : Bool
  cleanupCalled : Bool

/-- The `node.setFog(context.view.fogDistance)` call guarded by
`context.view.fogDistance != undefined`. -/
def setFogIfDefined (ctx : UContext) (node : TileNode) : TileNode :=
  match ctx.fogDistance with
  | some d => { node with fog := some d }
  | none => node

/-- Embedding of `TiledGeometryLayer.update(context, layer, node)`. -/
def update (ctx : UContext) (this : TiledLayer) (node : TileNode) : UpdateOutcome :=
  match node.parent with
  | none =>
      { node := node, ret := .cleanup, culledTested := false,
        subdivideCalled := false, commandSubmitted := none,
        removeChildrenCalled := false, cleanupCalled := true }
  | some p =>
      if p.pendingSubdivision then
        { node := { node with visible := false, displayed := false },
          ret := .nothing, culledTested := false, subdivideCalled := false,
          commandSubmitted := none, removeChildrenCalled := false,
          cleanupCalled := false }
      else
        let n1 := { node with visible := !(this.culling node ctx.cameraTag) }
        if n1.visible then
          if n1.pendingSubdivision ||
              (hasEnoughTexturesToSubdivide ctx n1 && this.subdivision ctx this.id n1) then
            let sub := subdivideNode this.id n1
            let n2 := { sub.1 with displayed := sub.1.pendingSubdivision }
            let n3 := if n2.materialVisible then setFogIfDefined ctx n2 else n2
            { node := n3,
              ret := .visit (n3.children.filter fun n => n.layer == this.id),
              culledTested := true, subdivideCalled := true,
              commandSubmitted := sub.2, removeChildrenCalled := false,
              cleanupCalled := false }
          else
            let n2 := { n1 with displayed := true }
            if n2.materialVisible then
              { node := setFogIfDefined ctx n2, ret := .removed,
                culledTested := true, subdivideCalled := false,
                commandSubmitted := none, removeChildrenCalled := true,
                cleanupCalled := false }
            else
              { node := n2, ret := .nothing, culledTested := true,
                subdivideCalled := false, commandSubmitted := none,
                removeChildrenCalled := false, cleanupCalled := false }
        else
          { node := { n1 with displayed := false }, ret := .removed,
            culledTested := true, subdivideCalled := false,
            commandSubmitted := none, removeChildrenCalled := true,
            cleanupCalled := false }

/-- A state of the per-node subdivision protocol: the node together with the
number of Subdivision Commands submitted for it and not yet completed. -/
structure SubdivState where
  node : TileNode
  outstanding : Nat

/-- The events that touch the per-node subdivision state: an orchestrator
call to `subdivideNode`, and the completion of an outstanding command by
fulfilment or by rejection. -/
inductive SubdivOp where
  | request
  | resolve (kids : List ChildRef)
  | reject (cancelled : Bool)

/-- One step of the per-node subdivision protocol.  `request` runs the
synchronous part of `subdivideNode`; a completion step is only enabled when
a command is actually outstanding. -/
def subStep (layerId : Nat) (s : SubdivState) : SubdivOp → Option SubdivState
  | .request =>
      let r := subdivideNode layerId s.node
      some { node := r.1, outstanding := s.outstanding + (if r.2.isSome then 1 else 0) }
  | .resolve kids =>
      if s.outstanding = 0 then none
      else some { node := subdivideNodeOnResolve s.node kids,
                  outstanding := s.outstanding - 1 }
  | .reject c =>
      if s.outstanding = 0 then none
      else some { node := (subdivideNodeOnReject s.node { cancelled := c }).1,
                  outstanding := s.outstanding - 1 }

/-- The subdivision states reachable from a fresh node (no pending
subdivision, no outstanding command) by protocol steps. -/
inductive SubdivReachable (layerId : Nat) : SubdivState → Prop where
  | init (node : TileNode) (hp : node.pendingSubdivision = false) :
      SubdivReachable layerId { node := node, outstanding := 0 }
  | step {s s' : SubdivState} (op : SubdivOp) (h : SubdivReachable layerId s)
      (hs : subStep layerId s op = some s') : SubdivReachable layerId s'

/-- A node source as seen by `preUpdate`: the `undefined` member, the
camera, a tile node (carrying its identity of type `α` and its owning
layer id), or any other source. -/
inductive PreSource (α : Type) where
  | undef
  | camera
  | tile (n : α) (layerId : Nat)
  | other
deriving DecidableEq

/-- Whether a source is the `undefined` member of the set. -/
def PreSource.isUndef {α : Type} : PreSource α → Bool
  | .undef => true
  | _ => false

/-- The environment `preUpdate` runs in: the identity of this layer, its
`level0Nodes`, and the two external queries on tile nodes —
`a.findCommonAncestor(b)` (modelled as `fca a b`) and whether
`node.material` is non-null (`material`). -/
structure PreEnv (α : Type) where
  layerId : Nat
  level0Nodes : List α
  fca : α → α → Option α
  material : α → Bool

/-- Embedding of the source loop of `TiledGeometryLayer.preUpdate`, with
`ca` the running `commonAncestor` variable.  The two early `return`
statements of the loop body become immediate results. -/
def preUpdateLoop {α : Type} (env : PreEnv α) (sources : List (PreSource α))
    (ca : Option α) : List α :=
  match sources with
  | [] =>
      match ca with
      | some c => [c]
      | none => env.level0Nodes
  | s :: rest =>
      match s with
      | .camera => env.level0Nodes
      | .tile n layerId =>
          if layerId == env.layerId then
            match (match ca with | none => some n | some c => env.fca n c) with
            | none => env.level0Nodes
            | some c2 =>
                preUpdateLoop env rest (if env.material c2 then some c2 else none)
          else
            preUpdateLoop env rest ca
      | _ => preUpdateLoop env rest ca

/-- Embedding of the return value of `TiledGeometryLayer.preUpdate`.  The
refresh of the context layer lists and of `maxElevationLevel` (source lines
before the loop) only writes context fields that the returned node list
never depends on, and the `__DEBUG__` block is bookkeeping; both are
omitted here. -/
def preUpdate {α : Type} (env : PreEnv α) (sources : List (PreSource α)) : List α :=
  if sources.any PreSource.isUndef || sources.length == 0 then
    env.level0Nodes
  else
    preUpdateLoop env sources none

/-- The tile nodes among the sources that belong to this layer, in source
order. -/
def tilesOfLayer {α : Type} (env : PreEnv α) (sources : List (PreSource α)) : List α :=
  sources.filterMap fun s =>
    match s with
    | .tile n layerId => if layerId == env.layerId then some n else none
    | _ => none

/-- One step of the pairwise common-ancestor fold: `none` means no source
seen yet, `some none` means a pairwise combination has already yielded no
ancestor, `some (some c)` is the running ancestor. -/
def caFoldStep {α : Type} (env : PreEnv α) : Option (Option α) → α → Option (Option α)
  | none, t => some (some t)
  | some none, _ => some none
  | some (some c), t => some (env.fca t c)

/-- Modelled from the spec: the "common ancestor resolved from all those
sources" — the node sources of this layer folded pairwise through the
Common-Ancestor Resolver, the first source being the initial ancestor and
any pairwise combination yielding none aborting the whole fold with none.
This is the spec-side reading of the resolution, stated without the
per-step material check, for comparison with `preUpdate`. -/
def resolvedCommonAncestor {α : Type} (env : PreEnv α)
    (sources : List (PreSource α)) : Option α :=
  match (tilesOfLayer env sources).foldl (caFoldStep env) none with
  | none => none
  | some r => r

/-- The common-ancestor operation lifted to a total operation on
`Option α`, with `none` absorbing; the commutativity and associativity of
the partial meet are stated on this lifting. -/
def liftFca {α : Type} (env : PreEnv α) : Option α → Option α → Option α
  | some a, some b => env.fca a b
  | _, _ => none

/-- A loop result permitted by the material discipline: the full root set,
or a singleton node that carries a material. -/
def GoodResult {α : Type} (env : PreEnv α) (r : List α) : Prop :=
  r = env.level0Nodes ∨ ∃ c, r = [c] ∧ env.material c = true

/-- Reading a fold state back as a loop result: no source seen and an
aborted fold both mean the full root set; a running ancestor is the
singleton. -/
def caInterp {α : Type} (env : PreEnv α) : Option (Option α) → List α
  | none => env.level0Nodes
  | some none => env.level0Nodes
  | some (some c) => [c]

/-- A concrete three-node quadtree fragment for counterexamples: node `0`
is the root, nodes `1` and `2` are its children; `treeFca` is the genuine
least common ancestor on it. -/
def treeFca (a b : Fin 3) : Option (Fin 3) :=
  if a = b then some a else some 0

/-- A concrete `preUpdate` environment over the three-node tree: this layer
has id `0` and a single root node `0`; only node `2` carries a non-null
material. -/
def cexEnv : PreEnv (Fin 3) :=
  { layerId := 0, level0Nodes := [0], fca := treeFca,
    material := fun n => n == 2 }

/-- The sources of the counterexamples: the two sibling tile nodes `1` and
`2` of this layer, in the two iteration orders of the same set. -/
def cexSources : List (PreSource (Fin 3)) :=
  [.tile 1 0, .tile 2 0]

/-- The same set of sources as `cexSources`, iterated in the other order. -/
def cexSourcesRev : List (PreSource (Fin 3)) :=
  [.tile 2 0, .tile 1 0]

/-- The environment `cexEnv` with every node carrying a material; used to
witness the order-independence of `preUpdate` once the material-based reset
cannot fire. -/
def matEnv : PreEnv (Fin 3) :=
  { cexEnv with material := fun _ => true }

/-- A concrete sources set holding the camera next to a node source. -/
def camSources : List (PreSource (Fin 3)) :=
  [.camera, .tile 1 0]

/-- An attached layer as inspected by `GeometryLayer.detach`. -/
structure AttachedLayer where
  id : Nat
deriving DecidableEq

/-- Embedding of `GeometryLayer.detach(layer)`: the new `attachedLayers`
array together with the returned confirmation boolean. -/
def detach (attachedLayers : List AttachedLayer) (layer : AttachedLayer) :
    List AttachedLayer × Bool :=
  let count := attachedLayers.length
  let filtered := attachedLayers.filter fun attached => attached.id != layer.id
  (filtered, filtered.length < count)

/-!  Concrete instances used by witnesses. -/

/-- A baseline tile node for concrete instances. -/
def node0 : TileNode :=
  { parent := none, pendingSubdivision := false, children := [], visible := false,
    displayed := false, materialVisible := true, elevationLoaded := false,
    colorLoaded := fun _ => false, layerUpdateState := fun _ => none,
    sourceCovers := fun _ => false, fog := none }

/-- A context with no data layers. -/
def ctx0 : UContext :=
  { elevationLayers := [], colorLayers := [], fogDistance := none, cameraTag := 0 }

/-- A context with one applicable elevation layer of id `0`. -/
def ctxE : UContext :=
  { elevationLayers := [{ id := 0, frozen := false, ready := true, visible := true }],
    colorLayers := [], fogDistance := none, cameraTag := 0 }

/-- A layer of id `0` whose culling oracle never culls and whose subdivision
criterion always approves. -/
def layer0 : TiledLayer :=
  { id := 0, culling := fun _ _ => false, subdivision := fun _ _ _ => true }

/-- A node whose parent is not subdividing and whose extent is covered by
every data-layer source. -/
def nodeD : TileNode :=
  { node0 with parent := some { pendingSubdivision := false },
               sourceCovers := fun _ => true }

/-- The node `nodeD` with a subdivision already pending. -/
def nodeE : TileNode :=
  { nodeD with pendingSubdivision := true }

/-- A node with an attached child of layer `0` and no pending subdivision. -/
def nodeF : TileNode :=
  { node0 with parent := some { pendingSubdivision := false },
               children := [{ layer := 0 }] }

/-- The protocol state reached from a fresh `node0` by one `request`. -/
def stateB : SubdivState :=
  { node := { node0 with pendingSubdivision := true }, outstanding := 1 }

/-- A node whose parent currently has a subdivision pending. -/
def nodeG : TileNode :=
  { node0 with parent := some { pendingSubdivision := true } }

/-!  Helper lemmas. -/

/-- Dropping list elements on which the scanned predicate is already true
does not change `all`. -/
theorem all_filter_eq_all {β : Type} (p q : β → Bool) (l : List β)
    (h : ∀ x ∈ l, p x = false → q x = true) :
    (l.filter p).all q = l.all q := by
  induction l with
  | nil => rfl
  | cons a t ih =>
      have ht : ∀ x ∈ t, p x = false → q x = true :=
        fun x hx => h x (List.mem_cons_of_mem _ hx)
      cases hp : p a with
      | false =>
          have hq := h a (List.mem_cons_self _ _) hp
          simp [List.filter_cons, hp, hq, ih ht]
      | true => simp [List.filter_cons, hp, ih ht]

/-- The readiness gate does not read the visibility flag of the node. -/
theorem hasEnough_set_visible (ctx : UContext) (n : TileNode) (v : Bool) :
    hasEnoughTexturesToSubdivide ctx { n with visible := v } =
      hasEnoughTexturesToSubdivide ctx n := rfl

/-- The fog write does not touch the display flag. -/
theorem setFogIfDefined_displayed (ctx : UContext) (n : TileNode) :
    (setFogIfDefined ctx n).displayed = n.displayed := by
  unfold setFogIfDefined
  cases ctx.fogDistance <;> rfl

/-- In every reachable state of the per-node subdivision protocol, the
number of outstanding commands is exactly the value of the
`pendingSubdivision` flag. -/
theorem subdivReachable_outstanding (layerId : Nat) (s : SubdivState)
    (h : SubdivReachable layerId s) :
    s.outstanding = (if s.node.pendingSubdivision then 1 else 0) := by
  induction h with
  | init node hp => simp [hp]
  | @step s s' op h hs ih =>
      cases op with
      | request =>
          simp only [subStep] at hs
          by_cases hg : (!s.node.pendingSubdivision &&
              !(s.node.children.any fun n => n.layer == layerId)) = true
          · have hp : s.node.pendingSubdivision = false := by
              cases hxp : s.node.pendingSubdivision
              · rfl
              · rw [hxp] at hg; simp at hg
            have hout : s.outstanding = 0 := by rw [ih, hp]; simp
            rw [show subdivideNode layerId s.node =
                ({ s.node with pendingSubdivision := true },
                 some { priority := 10000, redraw := false }) from by
              unfold subdivideNode; rw [if_pos hg]] at hs
            injection hs with hx
            rw [← hx]
            simp [hout]
          · rw [show subdivideNode layerId s.node = (s.node, none) from by
              unfold subdivideNode; rw [if_neg hg]] at hs
            injection hs with hx
            rw [← hx]
            simpa using ih
      | resolve kids =>
          simp only [subStep] at hs
          by_cases hz : s.outstanding = 0
          · rw [if_pos hz] at hs; exact absurd hs (by simp)
          · rw [if_neg hz] at hs
            have hpend : s.node.pendingSubdivision = true := by
              cases hxp : s.node.pendingSubdivision
              · rw [ih, hxp] at hz; simp at hz
              · rfl
            have hout : s.outstanding = 1 := by rw [ih, hpend]; simp
            injection hs with hx
            rw [← hx]
            simp [hout, subdivideNodeOnResolve]
      | reject c =>
          simp only [subStep] at hs
          by_cases hz : s.outstanding = 0
          · rw [if_pos hz] at hs; exact absurd hs (by simp)
          · rw [if_neg hz] at hs
            have hpend : s.node.pendingSubdivision = true := by
              cases hxp : s.node.pendingSubdivision
              · rw [ih, hxp] at hz; simp at hz
              · rfl
            have hout : s.outstanding = 1 := by rw [ih, hpend]; simp
            injection hs with hx
            rw [← hx]
            simp [hout, subdivideNodeOnReject]

/-!  Claims. -/

/-- C1: for every node, `subdivideNode` is a no-op — no command submitted
and no state change — whenever `pendingSubdivision` is already true or a
child of this layer is already attached, and consequently every reachable
state of the per-node subdivision protocol has at most one outstanding
Subdivision Command, enforced by the `pendingSubdivision` flag. -/
theorem C1_subdivideNode_guard_single_outstanding :
    ∀ (layerId : Nat) (node : TileNode) (s : SubdivState),
      (node.pendingSubdivision = true ∨
          (node.children.any fun n => n.layer == layerId) = true →
        subdivideNode layerId node = (node, none)) ∧
      (SubdivReachable layerId s → s.outstanding ≤ 1) := by
  intro layerId node s
  constructor
  · intro h
    unfold subdivideNode
    rcases h with h | h
    · simp [h]
    · simp [h]
  · intro h
    rw [subdivReachable_outstanding layerId s h]
    split <;> omega

/-- Witness for C1: the no-op on a node with a pending subdivision, and the
bound on a state reached by an actual request. -/
theorem C1_witness :
    subdivideNode 0 { node0 with pendingSubdivision := true } =
      ({ node0 with pendingSubdivision := true }, none) ∧
    stateB.outstanding ≤ 1 :=
  ⟨(C1_subdivideNode_guard_single_outstanding 0
      { node0 with pendingSubdivision := true } stateB).1 (Or.inl rfl),
   (C1_subdivideNode_guard_single_outstanding 0
      { node0 with pendingSubdivision := true } stateB).2
     (SubdivReachable.step .request (SubdivReachable.init node0 rfl) rfl)⟩

/-- C2: when the Subdivision Command promise is rejected,
`pendingSubdivision` is cleared; a cancellation surfaces no error while any
other failure is re-thrown; and the node keeps zero children of this
layer. -/
theorem C2_subdivideNode_rejection :
    ∀ (layerId : Nat) (node : TileNode) (err : JsError),
      (subdivideNodeOnReject node err).1.pendingSubdivision = false ∧
      (subdivideNodeOnReject node err).2 =
        (if err.cancelled then none else some err) ∧
      ((node.children.filter fun n => n.layer == layerId) = [] →
        ((subdivideNodeOnReject node err).1.children.filter
            fun n => n.layer == layerId) = []) := by
  intro layerId node err
  exact ⟨rfl, rfl, fun h => h⟩

/-- Witness for C2: a cancellation and a genuine failure on a childless
node. -/
theorem C2_witness :
    (subdivideNodeOnReject node0 { cancelled := true }).1.pendingSubdivision = false ∧
    (subdivideNodeOnReject node0 { cancelled := true }).2 = none ∧
    (subdivideNodeOnReject node0 { cancelled := false }).2 =
      some { cancelled := false } ∧
    ((subdivideNodeOnReject node0 { cancelled := true }).1.children.filter
        fun n => n.layer == 0) = [] :=
  ⟨(C2_subdivideNode_rejection 0 node0 { cancelled := true }).1,
   (C2_subdivideNode_rejection 0 node0 { cancelled := true }).2.1,
   (C2_subdivideNode_rejection 0 node0 { cancelled := false }).2.1,
   (C2_subdivideNode_rejection 0 node0 { cancelled := true }).2.2 rfl⟩

/-- C3: the readiness gate is never made false by a layer whose per-node
load status is in error — removing every such layer from the elevation and
color lists leaves the result of `hasEnoughTexturesToSubdivide`
unchanged. -/
theorem C3_hasEnough_skips_errored_layers :
    ∀ (ctx : UContext) (node : TileNode),
      hasEnoughTexturesToSubdivide
        { ctx with
            elevationLayers :=
              ctx.elevationLayers.filter fun e => !layerInError node e.id,
            colorLayers :=
              ctx.colorLayers.filter fun c => !layerInError node c.id }
        node
      = hasEnoughTexturesToSubdivide ctx node := by
  intro ctx node
  unfold hasEnoughTexturesToSubdivide
  have h1 : ∀ e ∈ ctx.elevationLayers, (!layerInError node e.id) = false →
      (if !e.frozen && e.ready && node.sourceCovers e.id && !node.elevationLoaded then
          layerInError node e.id
        else true) = true := by
    intro e _ hpe
    have he : layerInError node e.id = true := by simpa using hpe
    split <;> simp [he]
  have h2 : ∀ c ∈ ctx.colorLayers, (!layerInError node c.id) = false →
      (if c.frozen || !c.visible || !c.ready then true
        else if layerInError node c.id then true
        else !(node.sourceCovers c.id && !(node.colorLoaded c.id))) = true := by
    intro c _ hpc
    have hc : layerInError node c.id = true := by simpa using hpc
    split
    · rfl
    · simp [hc]
  rw [all_filter_eq_all _ _ _ h1, all_filter_eq_all _ _ _ h2]

/-- C4: for a visible node whose parent is not subdividing, if no
subdivision is pending and the readiness gate is false then `update` never
calls `subdivideNode` and submits no command, whatever the subdivision
criterion returns; while a node with a pending subdivision still proceeds
through `subdivideNode`. -/
theorem C4_update_readiness_gate :
    ∀ (ctx : UContext) (this : TiledLayer) (node : TileNode) (p : ParentRef),
      node.parent = some p → p.pendingSubdivision = false →
      this.culling node ctx.cameraTag = false →
      ((node.pendingSubdivision = false →
          hasEnoughTexturesToSubdivide ctx node = false →
          (update ctx this node).subdivideCalled = false ∧
          (update ctx this node).commandSubmitted = none) ∧
       (node.pendingSubdivision = true →
          (update ctx this node).subdivideCalled = true)) := by
  intro ctx this node p hpar hp hcull
  obtain ⟨par, pend, ch, vis, disp, mv, el, cl, lus, sc, fg⟩ := node
  have hpar2 : par = some p := hpar
  subst hpar2
  constructor
  · intro hpend hhet
    have hpend2 : pend = false := hpend
    subst hpend2
    have hhet2 : hasEnoughTexturesToSubdivide ctx
        ⟨some p, false, ch, true, disp, mv, el, cl, lus, sc, fg⟩ = false := hhet
    simp only [update, hp, Bool.false_eq_true, if_false, hcull, Bool.not_false,
      hhet2, Bool.false_and, Bool.false_or, if_true]
    split <;> simp
  · intro hpend
    have hpend2 : pend = true := hpend
    subst hpend2
    simp [update, hp, hcull]

/-- Witness for C4 at a concrete context blocked by an unloaded elevation
layer, and a concrete pending node. -/
theorem C4_witness :
    hasEnoughTexturesToSubdivide ctxE nodeD = false ∧
    (update ctxE layer0 nodeD).subdivideCalled = false ∧
    (update ctxE layer0 nodeD).commandSubmitted = none ∧
    (update ctxE layer0 nodeE).subdivideCalled = true :=
  ⟨rfl,
   ((C4_update_readiness_gate ctxE layer0 nodeD
      { pendingSubdivision := false } rfl rfl rfl).1 rfl rfl).1,
   ((C4_update_readiness_gate ctxE layer0 nodeD
      { pendingSubdivision := false } rfl rfl rfl).1 rfl rfl).2,
   (C4_update_readiness_gate ctxE layer0 nodeE
      { pendingSubdivision := false } rfl rfl rfl).2 rfl⟩

/-- C5: on the subdividing branch of `update` the display flag is set to
exactly the value of `pendingSubdivision` after `subdivideNode` ran; in
particular once children of this layer are attached and the pending flag is
clear, the next update of that visible subdividing node displays it as
false. -/
theorem C5_update_display_handoff :
    ∀ (ctx : UContext) (this : TiledLayer) (node : TileNode) (p : ParentRef),
      node.parent = some p → p.pendingSubdivision = false →
      this.culling node ctx.cameraTag = false →
      (node.pendingSubdivision ||
        (hasEnoughTexturesToSubdivide ctx node &&
          this.subdivision ctx this.id { node with visible := true })) = true →
      ((update ctx this node).node.displayed =
        (subdivideNode this.id { node with visible := true }).1.pendingSubdivision) ∧
      (node.pendingSubdivision = false →
        (node.children.any fun n => n.layer == this.id) = true →
        (update ctx this node).node.displayed = false) := by
  intro ctx this node p hpar hp hcull hbranch
  obtain ⟨par, pend, ch, vis, disp, mv, el, cl, lus, sc, fg⟩ := node
  have hpar2 : par = some p := hpar
  subst hpar2
  have hbranch2 : (pend ||
      (hasEnoughTexturesToSubdivide ctx
          ⟨some p, pend, ch, true, disp, mv, el, cl, lus, sc, fg⟩ &&
        this.subdivision ctx this.id
          ⟨some p, pend, ch, true, disp, mv, el, cl, lus, sc, fg⟩)) = true := hbranch
  have hmain : (update ctx this
        ⟨some p, pend, ch, vis, disp, mv, el, cl, lus, sc, fg⟩).node.displayed =
      (subdivideNode this.id
        ⟨some p, pend, ch, true, disp, mv, el, cl, lus, sc, fg⟩).1.pendingSubdivision := by
    simp only [update, hp, Bool.false_eq_true, if_false, hcull, Bool.not_false,
      hbranch2, if_true]
    split
    · exact setFogIfDefined_displayed _ _
    · rfl
  refine ⟨hmain, fun hpend hchild => ?_⟩
  have hpend2 : pend = false := hpend
  subst hpend2
  have hchild2 : (ch.any fun n => n.layer == this.id) = true := hchild
  rw [hmain]
  unfold subdivideNode
  rw [if_neg]
  simp [hchild2]

/-- Witness for C5: a pending node is redisplayed while pending, and a node
whose child of this layer is already attached is hidden on its next
update. -/
theorem C5_witness :
    (nodeE.pendingSubdivision ||
      (hasEnoughTexturesToSubdivide ctx0 nodeE &&
        layer0.subdivision ctx0 layer0.id { nodeE with visible := true })) = true ∧
    (update ctx0 layer0 nodeE).node.displayed =
      (subdivideNode layer0.id { nodeE with visible := true }).1.pendingSubdivision ∧
    (update ctx0 layer0 nodeF).node.displayed = false :=
  ⟨rfl,
   (C5_update_display_handoff ctx0 layer0 nodeE
      { pendingSubdivision := false } rfl rfl rfl rfl).1,
   (C5_update_display_handoff ctx0 layer0 nodeF
      { pendingSubdivision := false } rfl rfl rfl rfl).2 rfl rfl⟩

/-- C9: a node whose parent has a pending subdivision is hidden — `visible`
and the display flag both set to false — with no culling test, no
subdivision, no child removal, and no children returned for this frame. -/
theorem C9_update_parent_subdividing :
    ∀ (ctx : UContext) (this : TiledLayer) (node : TileNode) (p : ParentRef),
      node.parent = some p → p.pendingSubdivision = true →
      update ctx this node =
        { node := { node with visible := false, displayed := false },
          ret := .nothing, culledTested := false, subdivideCalled := false,
          commandSubmitted := none, removeChildrenCalled := false,
          cleanupCalled := false } := by
  intro ctx this node p hpar hp
  unfold update
  rw [hpar]
  simp [hp]

/-- Witness for C9 at a concrete node under a subdividing parent. -/
theorem C9_witness :
    update ctx0 layer0 nodeG =
      { node := { nodeG with visible := false, displayed := false },
        ret := .nothing, culledTested := false, subdivideCalled := false,
        commandSubmitted := none, removeChildrenCalled := false,
        cleanupCalled := false } :=
  C9_update_parent_subdividing ctx0 layer0 nodeG
    { pendingSubdivision := true } rfl rfl

/-- C10: `detach` removes every attached layer whose id equals the given
layer's id, keeps the others in their original order (the result is the
order-preserving filter, a sublist of the original), and returns true
exactly when at least one layer was removed. -/
theorem C10_detach :
    ∀ (ls : List AttachedLayer) (layer : AttachedLayer),
      (detach ls layer).1 = (ls.filter fun a => a.id != layer.id) ∧
      (∀ a ∈ (detach ls layer).1, a.id ≠ layer.id) ∧
      ((detach ls layer).1).Sublist ls ∧
      ((detach ls layer).2 = true ↔ ∃ a ∈ ls, a.id = layer.id) := by
  intro ls layer
  refine ⟨rfl, ?_, ?_, ?_⟩
  · intro a ha
    have := (List.mem_filter.mp ha).2
    simpa using this
  · exact List.filter_sublist _
  · show decide ((ls.filter fun a => a.id != layer.id).length < ls.length) = true ↔ _
    rw [decide_eq_true_eq, List.length_filter_lt_length_iff_exists]
    constructor
    · rintro ⟨a, ha, hpa⟩
      exact ⟨a, ha, by simpa using hpa⟩
    · rintro ⟨a, ha, hpa⟩
      exact ⟨a, ha, by simpa using hpa⟩

/-- Witness for C10 on a concrete attached-layer list with a duplicate
id. -/
theorem C10_witness :
    (detach [{ id := 1 }, { id := 2 }, { id := 1 }] { id := 1 }).1 =
      [{ id := 2 }] ∧
    (detach [{ id := 1 }, { id := 2 }, { id := 1 }] { id := 1 }).2 = true :=
  ⟨(C10_detach [{ id := 1 }, { id := 2 }, { id := 1 }] { id := 1 }).1.trans rfl,
   (C10_detach [{ id := 1 }, { id := 2 }, { id := 1 }] { id := 1 }).2.2.2.mpr
     ⟨{ id := 1 }, by decide, rfl⟩⟩

/-!  Lemmas about `preUpdate`. -/

/-- Equation of the source loop on the camera source. -/
theorem preUpdateLoop_cons_camera {α : Type} (env : PreEnv α)
    (rest : List (PreSource α)) (ca : Option α) :
    preUpdateLoop env (.camera :: rest) ca = env.level0Nodes := rfl

/-- Equation of the source loop on the `undefined` member. -/
theorem preUpdateLoop_cons_undef {α : Type} (env : PreEnv α)
    (rest : List (PreSource α)) (ca : Option α) :
    preUpdateLoop env (.undef :: rest) ca = preUpdateLoop env rest ca := rfl

/-- Equation of the source loop on a source of another kind. -/
theorem preUpdateLoop_cons_other {α : Type} (env : PreEnv α)
    (rest : List (PreSource α)) (ca : Option α) :
    preUpdateLoop env (.other :: rest) ca = preUpdateLoop env rest ca := rfl

/-- Equation of the source loop on a tile source of another layer. -/
theorem preUpdateLoop_tile_out {α : Type} (env : PreEnv α) (n : α)
    (layerId : Nat) (rest : List (PreSource α)) (ca : Option α)
    (hl : ¬((layerId == env.layerId) = true)) :
    preUpdateLoop env (.tile n layerId :: rest) ca = preUpdateLoop env rest ca := by
  show (if (layerId == env.layerId) = true then _ else preUpdateLoop env rest ca) = _
  rw [if_neg hl]

/-- Equation of the source loop on a tile source of this layer when no
ancestor is running yet: the source becomes the running ancestor, subject
to the material check. -/
theorem preUpdateLoop_tile_first {α : Type} (env : PreEnv α) (n : α)
    (layerId : Nat) (rest : List (PreSource α))
    (hl : (layerId == env.layerId) = true) :
    preUpdateLoop env (.tile n layerId :: rest) none =
      preUpdateLoop env rest (if env.material n then some n else none) := by
  show (if (layerId == env.layerId) = true then _ else _) = _
  rw [if_pos hl]

/-- Equation of the source loop on a tile source of this layer when an
ancestor is already running: the pairwise combination, the early fallback
on none, and the material check. -/
theorem preUpdateLoop_tile_next {α : Type} (env : PreEnv α) (n : α)
    (layerId : Nat) (rest : List (PreSource α)) (c : α)
    (hl : (layerId == env.layerId) = true) :
    preUpdateLoop env (.tile n layerId :: rest) (some c) =
      (match env.fca n c with
        | none => env.level0Nodes
        | some c2 =>
            preUpdateLoop env rest (if env.material c2 then some c2 else none)) := by
  show (if (layerId == env.layerId) = true then _ else _) = _
  rw [if_pos hl]

/-- If the camera is among the sources, the source loop returns the full
root set whatever the running ancestor is. -/
theorem preUpdateLoop_camera {α : Type} (env : PreEnv α) :
    ∀ (l : List (PreSource α)) (ca : Option α), PreSource.camera ∈ l →
      preUpdateLoop env l ca = env.level0Nodes := by
  intro l
  induction l with
  | nil => intro ca h; cases h
  | cons s rest ih =>
      intro ca h
      cases s with
      | camera => exact preUpdateLoop_cons_camera env rest ca
      | undef =>
          rcases List.mem_cons.mp h with h1 | h2
          · cases h1
          · rw [preUpdateLoop_cons_undef]
            exact ih ca h2
      | other =>
          rcases List.mem_cons.mp h with h1 | h2
          · cases h1
          · rw [preUpdateLoop_cons_other]
            exact ih ca h2
      | tile n layerId =>
          rcases List.mem_cons.mp h with h1 | h2
          · cases h1
          · by_cases hl : (layerId == env.layerId) = true
            · cases ca with
              | none =>
                  rw [preUpdateLoop_tile_first env n layerId rest hl]
                  exact ih _ h2
              | some c =>
                  rw [preUpdateLoop_tile_next env n layerId rest c hl]
                  cases env.fca n c with
                  | none => rfl
                  | some c2 => exact ih _ h2
            · rw [preUpdateLoop_tile_out env n layerId rest ca hl]
              exact ih ca h2

/-- The running-ancestor invariant of the source loop: started from an
ancestor that carries a material (or from none), the loop only ever returns
the full root set or a singleton node that carries a material. -/
theorem preUpdateLoop_material {α : Type} (env : PreEnv α) :
    ∀ (l : List (PreSource α)) (ca : Option α),
      (∀ c, ca = some c → env.material c = true) →
      GoodResult env (preUpdateLoop env l ca) := by
  intro l
  induction l with
  | nil =>
      intro ca hca
      cases ca with
      | none => exact Or.inl rfl
      | some c => exact Or.inr ⟨c, rfl, hca c rfl⟩
  | cons s rest ih =>
      intro ca hca
      cases s with
      | camera => exact Or.inl (preUpdateLoop_cons_camera env rest ca)
      | undef => rw [preUpdateLoop_cons_undef]; exact ih ca hca
      | other => rw [preUpdateLoop_cons_other]; exact ih ca hca
      | tile n layerId =>
          by_cases hl : (layerId == env.layerId) = true
          · cases ca with
            | none =>
                rw [preUpdateLoop_tile_first env n layerId rest hl]
                by_cases hm : env.material n = true
                · rw [if_pos hm]
                  exact ih (some n) fun c hc => by
                    injection hc with hc; rw [← hc]; exact hm
                · rw [if_neg hm]
                  exact ih none (by simp)
            | some c =>
                rw [preUpdateLoop_tile_next env n layerId rest c hl]
                cases env.fca n c with
                | none => exact Or.inl rfl
                | some c2 =>
                    by_cases hm : env.material c2 = true
                    · show GoodResult env
                        (preUpdateLoop env rest (if env.material c2 then some c2 else none))
                      rw [if_pos hm]
                      exact ih (some c2) fun d hd => by
                        injection hd with hd; rw [← hd]; exact hm
                    · show GoodResult env
                        (preUpdateLoop env rest (if env.material c2 then some c2 else none))
                      rw [if_neg hm]
                      exact ih none (by simp)
          · rw [preUpdateLoop_tile_out env n layerId rest ca hl]
            exact ih ca hca

/-- C6: for every non-empty sources set without the `undefined` sentinel,
the presence of a camera source makes `preUpdate` return the full Root Set
whatever node sources are also present. -/
theorem C6_preUpdate_camera_full_root_set {α : Type} :
    ∀ (env : PreEnv α) (sources : List (PreSource α)),
      sources ≠ [] → PreSource.undef ∉ sources → PreSource.camera ∈ sources →
      preUpdate env sources = env.level0Nodes := by
  intro env sources hne hund hcam
  unfold preUpdate
  split
  · rfl
  · exact preUpdateLoop_camera env sources none hcam

/-- Witness for C6 on a concrete set holding both the camera and a node
source. -/
theorem C6_witness :
    camSources ≠ ([] : List (PreSource (Fin 3))) ∧
    PreSource.undef ∉ camSources ∧
    PreSource.camera ∈ camSources ∧
    preUpdate cexEnv camSources = cexEnv.level0Nodes :=
  ⟨by decide, by decide, by decide,
   C6_preUpdate_camera_full_root_set cexEnv camSources (by decide) (by decide)
     (by decide)⟩

/-- Permutations leave `List.any` unchanged. -/
theorem perm_any_eq {β : Type} (p : β → Bool) {l l' : List β} (h : l.Perm l') :
    l.any p = l'.any p := by
  cases ha : l.any p with
  | false =>
      cases hb : l'.any p with
      | false => rfl
      | true =>
          exfalso
          rcases List.any_eq_true.mp hb with ⟨x, hx, hpx⟩
          have hc := List.any_eq_true.mpr ⟨x, h.mem_iff.mpr hx, hpx⟩
          rw [ha] at hc
          cases hc
  | true =>
      rcases List.any_eq_true.mp ha with ⟨x, hx, hpx⟩
      exact (List.any_eq_true.mpr ⟨x, h.mem_iff.mp hx, hpx⟩).symm

/-- The aborted fold state is absorbing. -/
theorem caFold_absorb {α : Type} (env : PreEnv α) :
    ∀ l : List α, l.foldl (caFoldStep env) (some none) = some none := by
  intro l
  induction l with
  | nil => rfl
  | cons a t ih => exact ih

/-- One fold step from a started state, written through the lifted
operation. -/
theorem caFoldStep_some {α : Type} (env : PreEnv α) (o : Option α) (t : α) :
    caFoldStep env (some o) t = some (liftFca env (some t) o) := by
  cases o <;> rfl

/-- The tile filter ignores the `undefined` member. -/
theorem tilesOfLayer_cons_undef {α : Type} (env : PreEnv α)
    (rest : List (PreSource α)) :
    tilesOfLayer env (.undef :: rest) = tilesOfLayer env rest := rfl

/-- The tile filter ignores the camera. -/
theorem tilesOfLayer_cons_camera {α : Type} (env : PreEnv α)
    (rest : List (PreSource α)) :
    tilesOfLayer env (.camera :: rest) = tilesOfLayer env rest := rfl

/-- The tile filter ignores sources of other kinds. -/
theorem tilesOfLayer_cons_other {α : Type} (env : PreEnv α)
    (rest : List (PreSource α)) :
    tilesOfLayer env (.other :: rest) = tilesOfLayer env rest := rfl

/-- The tile filter keeps a tile source of this layer. -/
theorem tilesOfLayer_cons_tile_in {α : Type} (env : PreEnv α) (n : α)
    (layerId : Nat) (rest : List (PreSource α))
    (hl : (layerId == env.layerId) = true) :
    tilesOfLayer env (.tile n layerId :: rest) = n :: tilesOfLayer env rest := by
  simp only [tilesOfLayer, List.filterMap_cons]
  rw [if_pos hl]

/-- The tile filter drops a tile source of another layer. -/
theorem tilesOfLayer_cons_tile_out {α : Type} (env : PreEnv α) (n : α)
    (layerId : Nat) (rest : List (PreSource α))
    (hl : ¬((layerId == env.layerId) = true)) :
    tilesOfLayer env (.tile n layerId :: rest) = tilesOfLayer env rest := by
  simp only [tilesOfLayer, List.filterMap_cons]
  rw [if_neg hl]

/-- When every node carries a material and no camera source is present, the
source loop is exactly the pairwise common-ancestor fold over the tile
sources of this layer, read back through `caInterp`. -/
theorem preUpdateLoop_eq_fold {α : Type} (env : PreEnv α)
    (hmat : ∀ n, env.material n = true) :
    ∀ (l : List (PreSource α)) (ca : Option α), PreSource.camera ∉ l →
      preUpdateLoop env l ca =
        caInterp env ((tilesOfLayer env l).foldl (caFoldStep env) (ca.map some)) := by
  intro l
  induction l with
  | nil =>
      intro ca hcam
      cases ca <;> rfl
  | cons s rest ih =>
      intro ca hcam
      have hcam2 : PreSource.camera ∉ rest :=
        fun h => hcam (List.mem_cons_of_mem _ h)
      cases s with
      | camera => exact absurd (List.mem_cons_self _ _) hcam
      | undef =>
          rw [preUpdateLoop_cons_undef, tilesOfLayer_cons_undef]
          exact ih ca hcam2
      | other =>
          rw [preUpdateLoop_cons_other, tilesOfLayer_cons_other]
          exact ih ca hcam2
      | tile n layerId =>
          by_cases hl : (layerId == env.layerId) = true
          · rw [tilesOfLayer_cons_tile_in env n layerId rest hl]
            cases ca with
            | none =>
                rw [preUpdateLoop_tile_first env n layerId rest hl, if_pos (hmat n)]
                rw [show ((none : Option α).map some) = none from rfl,
                  List.foldl_cons]
                exact ih (some n) hcam2
            | some c =>
                rw [preUpdateLoop_tile_next env n layerId rest c hl, List.foldl_cons]
                rw [show caFoldStep env ((some c).map some) n = some (env.fca n c)
                  from rfl]
                cases env.fca n c with
                | none =>
                    rw [caFold_absorb]
                    rfl
                | some c2 =>
                    show preUpdateLoop env rest
                        (if env.material c2 then some c2 else none) = _
                    rw [if_pos (hmat c2)]
                    exact ih (some c2) hcam2
          · rw [tilesOfLayer_cons_tile_out env n layerId rest hl,
              preUpdateLoop_tile_out env n layerId rest ca hl]
            exact ih ca hcam2

/-- The fold step is right-commutative whenever the lifted common-ancestor
operation is commutative and associative. -/
theorem caFoldStep_rightComm {α : Type} (env : PreEnv α)
    (hcomm : ∀ x y, liftFca env x y = liftFca env y x)
    (hassoc : ∀ x y z,
      liftFca env (liftFca env x y) z = liftFca env x (liftFca env y z))
    (z : Option (Option α)) (x y : α) :
    caFoldStep env (caFoldStep env z x) y = caFoldStep env (caFoldStep env z y) x := by
  cases z with
  | none =>
      show caFoldStep env (some (some x)) y = caFoldStep env (some (some y)) x
      rw [caFoldStep_some, caFoldStep_some]
      rw [show liftFca env (some y) (some x) = liftFca env (some x) (some y) from
        hcomm (some y) (some x)]
  | some o =>
      rw [caFoldStep_some, caFoldStep_some, caFoldStep_some, caFoldStep_some]
      rw [← hassoc, ← hassoc, hcomm (some y) (some x)]

/-- C7 counterexample: on the concrete tree, the common ancestor resolved
from all the node sources (the root, node `0`) has no material, yet
`preUpdate` returns the narrower singleton `[2]` instead of falling back to
the full Root Set — because the material-less running ancestor was
discarded mid-loop and the fold restarted at the next source. -/
theorem C7_counterexample :
    resolvedCommonAncestor cexEnv cexSources = some 0 ∧
    cexEnv.material 0 = false ∧
    preUpdate cexEnv cexSources = [2] ∧
    preUpdate cexEnv cexSources ≠ cexEnv.level0Nodes := by
  refine ⟨by decide, by decide, by decide, by decide⟩

/-- C7 amended: `preUpdate` never returns a narrower subtree whose root
lacks a renderable representation — its result is either the full Root Set
or a singleton node whose material is present; whenever the running
ancestor ends the loop discarded for lack of material, the full Root Set is
returned. -/
theorem C7_preUpdate_material_fallback {α : Type} :
    ∀ (env : PreEnv α) (sources : List (PreSource α)),
      preUpdate env sources = env.level0Nodes ∨
      ∃ c, preUpdate env sources = [c] ∧ env.material c = true := by
  intro env sources
  unfold preUpdate
  split
  · exact Or.inl rfl
  · exact preUpdateLoop_material env sources none (by simp)

/-- C8 counterexample: on the concrete tree the lifted common-ancestor
operation is commutative and associative and the resolver idempotent, the
two source lists are permutations of one set, yet `preUpdate` answers
differently on them — the material-based reset makes the fold
order-dependent. -/
theorem C8_counterexample :
    (∀ x y, liftFca cexEnv x y = liftFca cexEnv y x) ∧
    (∀ x y z,
      liftFca cexEnv (liftFca cexEnv x y) z =
        liftFca cexEnv x (liftFca cexEnv y z)) ∧
    (∀ a : Fin 3, cexEnv.fca a a = some a) ∧
    cexSources.Perm cexSourcesRev ∧
    preUpdate cexEnv cexSources ≠ preUpdate cexEnv cexSourcesRev := by
  refine ⟨by decide, by decide, by decide, by decide, by decide⟩

/-- C8 amended: when the lifted common-ancestor operation is commutative
and associative, the resolver idempotent, and every node carries a
renderable material (so the per-step material reset never discards the
running ancestor), the result of `preUpdate` is independent of the
iteration order of the sources. -/
theorem C8_preUpdate_order_independent {α : Type} :
    ∀ (env : PreEnv α) (l1 l2 : List (PreSource α)),
      (∀ x y, liftFca env x y = liftFca env y x) →
      (∀ x y z,
        liftFca env (liftFca env x y) z = liftFca env x (liftFca env y z)) →
      (∀ a, env.fca a a = some a) →
      (∀ n, env.material n = true) →
      l1.Perm l2 →
      preUpdate env l1 = preUpdate env l2 := by
  intro env l1 l2 hcomm hassoc _ hmat hperm
  unfold preUpdate
  rw [perm_any_eq PreSource.isUndef hperm, hperm.length_eq]
  split
  · rfl
  · by_cases hcam : PreSource.camera ∈ l1
    · rw [preUpdateLoop_camera env l1 none hcam,
        preUpdateLoop_camera env l2 none (hperm.mem_iff.mp hcam)]
    · have hcam2 : PreSource.camera ∉ l2 := fun h => hcam (hperm.mem_iff.mpr h)
      rw [preUpdateLoop_eq_fold env hmat l1 none hcam,
        preUpdateLoop_eq_fold env hmat l2 none hcam2]
      have htp : (tilesOfLayer env l1).Perm (tilesOfLayer env l2) :=
        hperm.filterMap _
      rw [htp.foldl_eq'
        (fun x _ y _ z => caFoldStep_rightComm env hcomm hassoc z x y) _]

/-- Witness for C8: on the concrete all-material environment the hypotheses
hold and the two iteration orders agree. -/
theorem C8_witness :
    (∀ x y, liftFca matEnv x y = liftFca matEnv y x) ∧
    (∀ x y z,
      liftFca matEnv (liftFca matEnv x y) z =
        liftFca matEnv x (liftFca matEnv y z)) ∧
    (∀ a : Fin 3, matEnv.fca a a = some a) ∧
    (∀ n, matEnv.material n = true) ∧
    cexSources.Perm cexSourcesRev ∧
    preUpdate matEnv cexSources = preUpdate matEnv cexSourcesRev :=
  ⟨by decide, by decide, by decide, by decide, by decide,
   C8_preUpdate_order_independent matEnv cexSources cexSourcesRev (by decide)
     (by decide) (by decide) (by decide) (by decide)⟩

end Itowns
